import Mathlib

/-!
Verification of the mutation engine of the DNS-FUZZER repository.

The Lean definitions below are a shallow embedding of the Python sources:

* `src/dnsfuzzer/core/query.py`        — `DNSQuery`, `DNSQuery.clone`
* `src/dnsfuzzer/core/mutator.py`      — `MutationStrategy`, `DNSMutator`
  (`register_strategy`, `list_strategies`, `get_strategy`, `mutate`,
   `_sample`, `get_mutation_stats`, `create_strategy_chain`)
* `src/dnsfuzzer/exceptions.py`        — exception classes
* `src/dnsfuzzer/strategies/logical_record.py` — `LogicalRecordGenerator`
* `src/dnsfuzzer/strategies/logical.py`        — `LogicalRecordStrategy`

Python's `random.Random` is modelled as a deterministic stream of natural
numbers (`Rng`): each primitive draw (`randint`, `choice`, the uniform draw
inside `choices`) consumes one element of the stream.  "Same seeded RNG
state" in the spec corresponds to "same `Rng` value" here; properties are
proved for every stream, hence for every seed.  Strategy weights are floats
in Python; every weight appearing in the sources and claims is a
non-negative integer-valued constant, and weights are modelled as `Nat`
(`0` is exactly Python's `0.0`; the `random.choices` guard `total <= 0.0`
becomes `total = 0`).

Python exceptions are modelled with an explicit class tag (`ExcClass`);
operations that can raise return `Except PyErr`.  Object state that
survives a raised exception (the mutator's RNG) is threaded explicitly, so
`DNSMutator.mutate` returns the final `MutatorState` in both the normal and
the exceptional case; the history is appended only on the success path,
exactly as in the source where the `self._history.append` line is reached
only when no exception was raised.
-/

/-- Deterministic model of `random.Random`: an infinite stream of naturals
together with a cursor.  Each primitive draw consumes one stream element. -/
structure Rng where
  stream : Nat → Nat
  idx : Nat

/-- Consume one raw draw from the stream. -/
def Rng.next (r : Rng) : Nat × Rng :=
  (r.stream r.idx, ⟨r.stream, r.idx + 1⟩)

/-- Embeds `rng.randint(lo, hi)`: uniform integer in the inclusive range
`[lo, hi]` (all call sites in the sources have `lo ≤ hi`). -/
def Rng.randint (r : Rng) (lo hi : Nat) : Nat × Rng :=
  let (n, r1) := r.next
  (lo + n % (hi + 1 - lo), r1)

/-- Embeds `rng.choice(xs)`: pick one element of a non-empty sequence (a default
is supplied for the empty case, which no call site reaches). -/
def Rng.choice {α : Type} (r : Rng) (xs : List α) (d : α) : α × Rng :=
  let (n, r1) := r.next
  (xs.getD (n % xs.length) d, r1)

/-- Embeds `rng.choice([True, False])`. -/
def Rng.coin (r : Rng) : Bool × Rng :=
  let (n, r1) := r.next
  (n % 2 = 0, r1)

/-- A resource record, i.e. the Python dict
`{'name': …, 'type': …, 'class': …, 'ttl': …, 'rdata': …}` used for the
entries of the `answers` / `authorities` / `additional` sections
(`rtype` embeds the key `'type'` and `rclass` the key `'class'`). -/
structure Rec where
  name : String
  rtype : String
  rclass : String
  ttl : Nat
  rdata : String
deriving DecidableEq, Repr

/-- An opaque EDNS option entry (the sources never inspect its shape). -/
abbrev EdnsOpt := String

/-- Embeds `DNSQuery` from `core/query.py` (dataclass fields in source order).
`opcode` and `response_code` hold the numeric value of the dnspython
enums; `edns_version` holds the non-negative values used by the engine. -/
structure DNSQuery where
  query_id : Nat
  opcode : Nat
  authoritative : Bool
  truncated : Bool
  recursion_desired : Bool
  recursion_available : Bool
  response_code : Nat
  is_response : Bool
  qname : String
  qtype : String
  qclass : String
  answers : List Rec
  authorities : List Rec
  additional : List Rec
  edns_version : Nat
  edns_payload_size : Nat
  edns_dnssec_ok : Bool
  edns_options : List EdnsOpt
deriving DecidableEq, Repr

/-- Embeds `DNSQuery.clone` from `core/query.py`: every scalar field is copied and
each of the four list fields is `list.copy()`-ed.  At the level of values a
Python `list.copy()` yields an equal list, so the clone is field-by-field
equal to the source (the sharing of the record dicts that `list.copy()`
leaves behind is modelled separately by the heap embedding further down). -/
def DNSQuery.clone (q : DNSQuery) : DNSQuery :=
  { query_id := q.query_id
    opcode := q.opcode
    authoritative := q.authoritative
    truncated := q.truncated
    recursion_desired := q.recursion_desired
    recursion_available := q.recursion_available
    response_code := q.response_code
    is_response := q.is_response
    qname := q.qname
    qtype := q.qtype
    qclass := q.qclass
    answers := q.answers
    authorities := q.authorities
    additional := q.additional
    edns_version := q.edns_version
    edns_payload_size := q.edns_payload_size
    edns_dnssec_ok := q.edns_dnssec_ok
    edns_options := q.edns_options }

/-- The Python exception classes that the mutation engine can raise:
`NoSuchStrategyError` from `exceptions.py` and the standard `ValueError`
(raised by `random.choices` when the total weight is zero). -/
inductive ExcClass where
  | noSuchStrategyError
  | valueError
deriving DecidableEq, Repr

/-- A raised Python exception: its class and its message string. -/
structure PyErr where
  cls : ExcClass
  msg : String
deriving DecidableEq, Repr

/-- The ASCII single-quote character used by the source's f-string error
messages. -/
def squo : String := String.singleton (Char.ofNat 39)

/-- A registered `MutationStrategy` (`core/mutator.py`): its identity
(`name`, `description`, `weight`, runtime class name `cls`) plus its two
behaviours `can_mutate` and `mutate`.  `mutateFn` threads the RNG
explicitly (Python mutates the shared `random.Random` in place). -/
structure Strategy where
  name : String
  description : String
  weight : Nat
  cls : String
  canMutate : DNSQuery → Bool
  mutateFn : DNSQuery → Rng → DNSQuery × Rng

/-- Embeds `DNSMutator.register_strategy`: `self.strategies[strategy.name] = strategy`
on an insertion-ordered dict — an existing name is overwritten in place,
a fresh name is appended. -/
def register_strategy (strats : List Strategy) (s : Strategy) : List Strategy :=
  if strats.any (fun t => t.name = s.name) then
    strats.map (fun t => if t.name = s.name then s else t)
  else
    strats ++ [s]

/-- Embeds `DNSMutator.get_strategy`, i.e. `self.strategies.get(name)`. -/
def get_strategy (strats : List Strategy) (name : String) : Option Strategy :=
  strats.find? (fun s => s.name = name)

/-- The dict returned by `MutationStrategy.get_mutation_info`. -/
structure StrategyInfo where
  name : String
  description : String
  weight : Nat
  cls : String
deriving DecidableEq, Repr

/-- Embeds `MutationStrategy.get_mutation_info`. -/
def get_mutation_info (s : Strategy) : StrategyInfo :=
  ⟨s.name, s.description, s.weight, s.cls⟩

/-- Embeds `DNSMutator.list_strategies`: `get_mutation_info` of every value of the
insertion-ordered strategies dict, in dict (= registration) order. -/
def list_strategies (strats : List Strategy) : List StrategyInfo :=
  strats.map get_mutation_info

/-- A value stored in a history-record dict. -/
inductive HVal where
  | nat (n : Nat)
  | str (s : String)
  | names (l : List String)
deriving DecidableEq, Repr

/-- One entry of `DNSMutator._history`: a Python dict, modelled as an
ordered association list. -/
abbrev HistRecord := List (String × HVal)

/-- Embeds `record.get(key)` on a history record. -/
def lookupKey (rec : HistRecord) (k : String) : Option HVal :=
  (rec.find? (fun p => p.1 = k)).map (fun p => p.2)

/-- The history dict appended at the end of `DNSMutator.mutate`
(`core/mutator.py`): keys in source order. -/
def histRecordOf (q mq : DNSQuery) (applied : List String) : HistRecord :=
  [("original_id", HVal.nat q.query_id),
   ("mutated_id", HVal.nat mq.query_id),
   ("strategies", HVal.names applied),
   ("num_mutations", HVal.nat applied.length)]

/-- Embeds `stats[name] = stats.get(name, 0) + 1` on an insertion-ordered dict. -/
def bumpStat (stats : List (String × Nat)) (name : String) : List (String × Nat) :=
  if stats.any (fun p => p.1 = name) then
    stats.map (fun p => if p.1 = name then (p.1, p.2 + 1) else p)
  else
    stats ++ [(name, 1)]

/-- One iteration of the `get_mutation_stats` loop: read the key
`'strategy'` of the record and count it when truthy.  The records this
module produces store only `nat` and `names` values under other keys; a
string value is truthy in Python exactly when it is non-empty. -/
def statsStep (stats : List (String × Nat)) (rec : HistRecord) :
    List (String × Nat) :=
  match lookupKey rec "strategy" with
  | some (HVal.str s) => if s = "" then stats else bumpStat stats s
  | _ => stats

/-- Embeds `DNSMutator.get_mutation_stats`. -/
def get_mutation_stats (history : List HistRecord) : List (String × Nat) :=
  history.foldl statsStep []

/-- The selection inside `random.choices`: first element whose cumulative
weight strictly exceeds the uniform draw `u` (expressed subtractively). -/
def pickCum (xs : List Strategy) (u : Nat) : Option Strategy :=
  match xs with
  | [] => none
  | s :: rest => if u < s.weight then some s else pickCum rest (u - s.weight)

/-- Embeds `DNSMutator._sample`: filter the registered strategies by
`can_mutate`, return `none` when nothing is applicable, otherwise perform
`rng.choices(applicable, weights)[0]`.  CPython's `random.choices` checks
the total weight before drawing and raises
`ValueError('Total of weights must be greater than zero')` when it is not
positive; the uniform draw in `[0, total)` is modelled as one stream draw
reduced modulo the total. -/
def sampleStrategy (strats : List Strategy) (q : DNSQuery) (r : Rng) :
    Except PyErr (Option (Strategy × Rng)) :=
  let applicable := strats.filter (fun s => s.canMutate q)
  if applicable.isEmpty then
    Except.ok none
  else
    let total := (applicable.map (fun s => s.weight)).sum
    if total = 0 then
      Except.error ⟨ExcClass.valueError, "Total of weights must be greater than zero"⟩
    else
      let (n, r1) := r.next
      Except.ok ((pickCum applicable (n % total)).map (fun s => (s, r1)))

/-- Embeds `DNSMutator`'s mutable state: the strategies dict, the RNG and the
history list. -/
structure MutatorState where
  strategies : List Strategy
  rng : Rng
  history : List HistRecord

/-- The `for i in range(num_mutations)` loop of `DNSMutator.mutate`.
On a raised exception the error carries the RNG at the moment of the
raise (the Python object's RNG keeps whatever it consumed).  A `break`
(no applicable strategy) ends the loop normally. -/
def mutateLoop (strats : List Strategy) (sname : Option String) :
    Nat → DNSQuery → Rng → List String →
    Except (PyErr × Rng) (DNSQuery × Rng × List String)
  | 0, q, r, acc => Except.ok (q, r, acc)
  | n + 1, q, r, acc =>
    match sname with
    | some nm =>
      match get_strategy strats nm with
      | none =>
        Except.error (⟨ExcClass.noSuchStrategyError,
          "Strategy " ++ squo ++ nm ++ squo ++ " not found"⟩, r)
      | some s =>
        let (q1, r1) := s.mutateFn q r
        mutateLoop strats sname n q1 r1 (acc ++ [s.name])
    | none =>
      match sampleStrategy strats q r with
      | Except.error e => Except.error (e, r)
      | Except.ok none => Except.ok (q, r, acc)
      | Except.ok (some (s, r1)) =>
        let (q1, r2) := s.mutateFn q r1
        mutateLoop strats sname n q1 r2 (acc ++ [s.name])

/-- Embeds `DNSMutator.mutate` (`core/mutator.py`): raise `NoSuchStrategyError`
when the strategies dict is empty, otherwise clone the input, run the
mutation loop, and on normal completion append exactly one history record
covering the whole call.  The returned `MutatorState` is the object state
after the call, in the exceptional case as well (history untouched there,
since the raise happens before the `self._history.append` line). -/
def DNSMutator.mutate (st : MutatorState) (q : DNSQuery) (sname : Option String)
    (num : Nat) : Except PyErr DNSQuery × MutatorState :=
  if st.strategies.isEmpty then
    (Except.error ⟨ExcClass.noSuchStrategyError, "No mutation strategies registered"⟩, st)
  else
    match mutateLoop st.strategies sname num q.clone st.rng [] with
    | Except.error (e, r1) =>
      (Except.error e, ⟨st.strategies, r1, st.history⟩)
    | Except.ok (mq, r1, applied) =>
      (Except.ok mq,
       ⟨st.strategies, r1, st.history ++ [histRecordOf q mq applied]⟩)

/-- The name-resolution loop of `DNSMutator.create_strategy_chain`: fails
fast with `NoSuchStrategyError` at the first unregistered name. -/
def resolveChain (strats : List Strategy) : List String → Except PyErr (List Strategy)
  | [] => Except.ok []
  | nm :: rest =>
    match get_strategy strats nm with
    | none =>
      Except.error ⟨ExcClass.noSuchStrategyError,
        "Strategy " ++ squo ++ nm ++ squo ++ " not found"⟩
    | some s =>
      match resolveChain strats rest with
      | Except.error e => Except.error e
      | Except.ok ss => Except.ok (s :: ss)

/-- Embeds `DNSMutator.create_strategy_chain`, resolution part. -/
def create_strategy_chain (strats : List Strategy) (names : List String) :
    Except PyErr (List Strategy) :=
  resolveChain strats names

/-- The `apply_chain` closure returned by `create_strategy_chain`: clone
the input once, then run each resolved strategy in order, applying it only
when its `can_mutate` holds on the then-current message. -/
def apply_chain (resolved : List Strategy) (q : DNSQuery) (r : Rng) :
    DNSQuery × Rng :=
  resolved.foldl
    (fun p s => if s.canMutate p.1 then s.mutateFn p.1 p.2 else p)
    (q.clone, r)

/-- Follows the spec's words (§4.3 `CreateChain`): applying the chain runs
each *named* strategy in list order on an initial clone, each applied
exactly when its `CanApply` holds on the then-current message and skipped
otherwise.  Stated directly over the name list for comparison with the
code's resolve-then-apply implementation. -/
def chainSpecApply (strats : List Strategy) (names : List String)
    (q : DNSQuery) (r : Rng) : DNSQuery × Rng :=
  names.foldl
    (fun p nm =>
      match get_strategy strats nm with
      | some s => if s.canMutate p.1 then s.mutateFn p.1 p.2 else p
      | none => p)
    (q.clone, r)

/-! ## LogicalRecordGenerator (`strategies/logical_record.py`) -/

/-- The scenario enum, members in source order (the order of
`list(ScenarioType)` matters for `rng.choice`). -/
inductive ScenarioType where
  | nsWithGlue
  | cnameChain
  | cnameLoop
  | authorityAdditional
  | zoneStructure
  | delegation
  | wildcardRecords
deriving DecidableEq, Repr

/-- Embeds `list(ScenarioType)` in enum order. -/
def scenarioTypeList : List ScenarioType :=
  [ScenarioType.nsWithGlue, ScenarioType.cnameChain, ScenarioType.cnameLoop,
   ScenarioType.authorityAdditional, ScenarioType.zoneStructure,
   ScenarioType.delegation, ScenarioType.wildcardRecords]

namespace LogicalRecordGenerator

/-- The generator's default charset. -/
def charset : List Char := "abcdefghijklmnopqrstuvwxyz0123456789".toList

/-- Embeds the generator expression joining `rng.choice(charset)` draws. -/
def randChars (cs : List Char) : Nat → Rng → List Char × Rng
  | 0, r => ([], r)
  | n + 1, r =>
    let (c, r1) := r.choice cs 'a'
    let (rest, r2) := randChars cs n r1
    (c :: rest, r2)

/-- Embeds `LogicalRecordGenerator.random_string`: length defaults to
`rng.randint(3, 10)`. -/
def random_string (r : Rng) (length : Option Nat) (cs : List Char) :
    String × Rng :=
  let (len, r1) :=
    match length with
    | none => r.randint 3 10
    | some l => (l, r)
  let (chars, r2) := randChars cs len r1
  (String.mk chars, r2)

/-- The `if not domain.endswith('.')` normalisation (`endswith('.')` is
the test that the last character is a dot, expressed on the underlying
character list so that it evaluates by kernel reduction). -/
def ensureDot (d : String) : String :=
  if d.data.getLast? = some (Char.ofNat 46) then d else d ++ "."

/-- The TLD catalog of `random_domain_name`. -/
def tlds : List String := ["com", "org", "net", "edu", "gov", "mil", "int"]

/-- The label loop of `random_domain_name` (no base domain): each label is
`random_string(rng, rng.randint(3, 8))`. -/
def labelsLoop : Nat → Rng → List String × Rng
  | 0, r => ([], r)
  | n + 1, r =>
    let (len, r1) := r.randint 3 8
    let (lab, r2) := random_string r1 (some len) charset
    let (rest, r3) := labelsLoop n r2
    (lab :: rest, r3)

/-- Embeds `LogicalRecordGenerator.random_domain_name`. -/
def random_domain_name (r : Rng) (max_labels : Nat) (base_domain : Option String) :
    String × Rng :=
  match base_domain with
  | some b =>
    let (len, r1) := r.randint 3 8
    let (sub, r2) := random_string r1 (some len) charset
    (ensureDot (sub ++ "." ++ b), r2)
  | none =>
    let (cnt, r1) := r.randint 1 max_labels
    let (labels, r2) := labelsLoop cnt r1
    let (tld, r3) := r2.choice tlds "com"
    (ensureDot (String.intercalate "." (labels ++ [tld])), r3)

/-- Embeds `LogicalRecordGenerator.random_ipv4`: four `randint(1, 254)` octets. -/
def random_ipv4 (r : Rng) : String × Rng :=
  let (a, r1) := r.randint 1 254
  let (b, r2) := r1.randint 1 254
  let (c, r3) := r2.randint 1 254
  let (d, r4) := r3.randint 1 254
  (toString a ++ "." ++ toString b ++ "." ++ toString c ++ "." ++ toString d, r4)

/-- One IPv6 group formatted `{:04x}`. -/
def hex4 (n : Nat) : String :=
  let ds := Nat.toDigits 16 n
  String.mk (List.replicate (4 - ds.length) '0' ++ ds)

/-- The eight-group loop of `random_ipv6`. -/
def ipv6Groups : Nat → Rng → List String × Rng
  | 0, r => ([], r)
  | n + 1, r =>
    let (g, r1) := r.randint 0 65535
    let (rest, r2) := ipv6Groups n r1
    (hex4 g :: rest, r2)

/-- Embeds `LogicalRecordGenerator.random_ipv6`. -/
def random_ipv6 (r : Rng) : String × Rng :=
  let (gs, r1) := ipv6Groups 8 r
  (String.intercalate ":" gs, r1)

/-- One iteration of the `for i in range(ns_count)` loop of
`generate_ns_with_glue_scenario`: the `NS` record for `ns{i+1}.<zone>`,
its glue `A` record, and with a coin flip an extra `AAAA` glue record. -/
def glueBlock (zone : String) (i : Nat) (r : Rng) : List Rec × Rng :=
  let ns_name := "ns" ++ toString (i + 1) ++ "." ++ zone
  let t1 := r.randint 3600 86400
  let nsRec : Rec := ⟨zone, "NS", "IN", t1.1, ns_name⟩
  let t2 := t1.2.randint 3600 86400
  let p4 := random_ipv4 t2.2
  let aRec : Rec := ⟨ns_name, "A", "IN", t2.1, p4.1⟩
  let fl := p4.2.coin
  if fl.1 then
    let t3 := fl.2.randint 3600 86400
    let p6 := random_ipv6 t3.2
    ([nsRec, aRec, ⟨ns_name, "AAAA", "IN", t3.1, p6.1⟩], p6.2)
  else
    ([nsRec, aRec], fl.2)

/-- The whole `for i in range(ns_count)` loop, `i` starting at the given
index. -/
def glueLoop (zone : String) : Nat → Nat → Rng → List Rec × Rng
  | 0, _, r => ([], r)
  | n + 1, i, r =>
    let b := glueBlock zone i r
    let rest := glueLoop zone n (i + 1) b.2
    (b.1 ++ rest.1, rest.2)

/-- Embeds `LogicalRecordGenerator.generate_ns_with_glue_scenario`. -/
def generate_ns_with_glue_scenario (r : Rng) (zone_name : Option String) :
    List Rec × Rng :=
  let z :=
    match zone_name with
    | none => random_domain_name r 2 none
    | some zn => (zn, r)
  let c := z.2.randint 2 4
  glueLoop z.1 c.1 0 c.2

/-- The domain-building loop of `generate_cname_chain_scenario`. -/
def cnameDomains : Nat → Nat → Rng → List String × Rng
  | 0, _, r => ([], r)
  | n + 1, i, r =>
    let (base, r1) := random_domain_name r 2 none
    let d :=
      if i = 0 then "alias" ++ toString (i + 1) ++ "." ++ base
      else "target" ++ toString i ++ "." ++ base
    let (rest, r2) := cnameDomains n (i + 1) r1
    (d :: rest, r2)

/-- The `for i in range(len(domains) - 1)` CNAME-link loop. -/
def cnameLinks (domains : List String) (create_loop : Bool) :
    List Nat → Rng → List Rec × Rng
  | [], r => ([], r)
  | i :: rest, r =>
    let target :=
      if create_loop && (i == domains.length - 2) then domains.getD 0 ""
      else domains.getD (i + 1) ""
    let (ttl, r1) := r.randint 300 3600
    let link : Rec := ⟨domains.getD i "", "CNAME", "IN", ttl, target⟩
    let (others, r2) := cnameLinks domains create_loop rest r1
    (link :: others, r2)

/-- Embeds `LogicalRecordGenerator.generate_cname_chain_scenario`. -/
def generate_cname_chain_scenario (r : Rng) (chain_length : Option Nat)
    (create_loop : Bool) : List Rec × Rng :=
  let (len, r1) :=
    match chain_length with
    | none => r.randint 2 5
    | some l => (l, r)
  let (domains, r2) := cnameDomains len 0 r1
  let (links, r3) := cnameLinks domains create_loop (List.range (domains.length - 1)) r2
  if create_loop then (links, r3)
  else
    let (ttl, r4) := r3.randint 300 3600
    let (ip4, r5) := random_ipv4 r4
    (links ++ [⟨domains.getLastD "", "A", "IN", ttl, ip4⟩], r5)

/-- The authority-NS loop of `generate_authority_additional_scenario`,
collecting the nameserver names and the `NS` records. -/
def authNSLoop (zone : String) : Nat → Nat → Rng → (List String × List Rec) × Rng
  | 0, _, r => (([], []), r)
  | n + 1, i, r =>
    let ns_name := "ns" ++ toString (i + 1) ++ "." ++ zone
    let (ttl, r1) := r.randint 3600 86400
    let nsRec : Rec := ⟨zone, "NS", "IN", ttl, ns_name⟩
    let (pr, r2) := authNSLoop zone n (i + 1) r1
    ((ns_name :: pr.1, nsRec :: pr.2), r2)

/-- The additional-records loop of `generate_authority_additional_scenario`:
an `A` record per nameserver, plus a coin-flipped `AAAA`. -/
def additionalLoop : List String → Rng → List Rec × Rng
  | [], r => ([], r)
  | nm :: rest, r =>
    let (ttl, r1) := r.randint 3600 86400
    let (ip4, r2) := random_ipv4 r1
    let aRec : Rec := ⟨nm, "A", "IN", ttl, ip4⟩
    let (flip, r3) := r2.coin
    if flip then
      let (ttl2, r4) := r3.randint 3600 86400
      let (ip6, r5) := random_ipv6 r4
      let (others, r6) := additionalLoop rest r5
      (aRec :: ⟨nm, "AAAA", "IN", ttl2, ip6⟩ :: others, r6)
    else
      let (others, r4) := additionalLoop rest r3
      (aRec :: others, r4)

/-- Embeds `LogicalRecordGenerator.generate_authority_additional_scenario`,
returning the `(answer, authority, additional)` triple. -/
def generate_authority_additional_scenario (r : Rng) (query_name : Option String) :
    (List Rec × List Rec × List Rec) × Rng :=
  let (qn, r1) :=
    match query_name with
    | none => random_domain_name r 3 none
    | some s => (s, r)
  let labels := qn.splitOn "."
  let zone :=
    if 2 ≤ labels.length then String.intercalate "." (labels.drop (labels.length - 2))
    else qn
  let (ttlA, r2) := r1.randint 300 3600
  let (ipA, r3) := random_ipv4 r2
  let (cnt, r4) := r3.randint 2 4
  let (pr, r5) := authNSLoop zone cnt 0 r4
  let (adds, r6) := additionalLoop pr.1 r5
  (([⟨qn, "A", "IN", ttlA, ipA⟩], pr.2, adds), r6)

/-- The `A`-records loop of `generate_zone_structure_scenario` (apex first,
then random subdomains). -/
def zoneALoop (zone : String) : Nat → Nat → Rng → List Rec × Rng
  | 0, _, r => ([], r)
  | n + 1, i, r =>
    let (nameV, r1) :=
      if i = 0 then (zone, r)
      else
        let (len, ra) := r.randint 3 10
        let (sub, rb) := random_string ra (some len) charset
        (sub ++ "." ++ zone, rb)
    let (ttl, r2) := r1.randint 300 3600
    let (ip4, r3) := random_ipv4 r2
    let (rest, r4) := zoneALoop zone n (i + 1) r3
    (⟨nameV, "A", "IN", ttl, ip4⟩ :: rest, r4)

/-- The `MX`-records loop of `generate_zone_structure_scenario`. -/
def zoneMXLoop (zone : String) : Nat → Nat → Rng → List Rec × Rng
  | 0, _, r => ([], r)
  | n + 1, i, r =>
    let priority := (i + 1) * 10
    let mx_name := "mail" ++ toString (i + 1) ++ "." ++ zone
    let (ttl1, r1) := r.randint 3600 86400
    let mxRec : Rec := ⟨zone, "MX", "IN", ttl1, toString priority ++ " " ++ mx_name⟩
    let (ttl2, r2) := r1.randint 300 3600
    let (ip4, r3) := random_ipv4 r2
    let (rest, r4) := zoneMXLoop zone n (i + 1) r3
    (mxRec :: ⟨mx_name, "A", "IN", ttl2, ip4⟩ :: rest, r4)

/-- Embeds `LogicalRecordGenerator.generate_zone_structure_scenario`. -/
def generate_zone_structure_scenario (r : Rng) (zone_name : Option String) :
    List Rec × Rng :=
  let (zone, r1) :=
    match zone_name with
    | none => random_domain_name r 2 none
    | some z => (z, r)
  let primary_ns := "ns1." ++ zone
  let admin_email := "admin." ++ zone
  let (serial, r2) := r1.randint 2020010101 2024123199
  let (refresh, r3) := r2.choice [3600, 7200, 14400, 28800] 3600
  let (retry, r4) := r3.choice [1800, 3600, 7200] 1800
  let (expire, r5) := r4.choice [604800, 1209600, 2419200] 604800
  let (minimum, r6) := r5.choice [300, 600, 3600] 300
  let (ttlS, r7) := r6.randint 3600 86400
  let soa : Rec := ⟨zone, "SOA", "IN", ttlS,
    primary_ns ++ " " ++ admin_email ++ " " ++ toString serial ++ " " ++
    toString refresh ++ " " ++ toString retry ++ " " ++ toString expire ++
    " " ++ toString minimum⟩
  let (nsRecs, r8) := generate_ns_with_glue_scenario r7 (some zone)
  let (cntA, r9) := r8.randint 3 8
  let (aRecs, r10) := zoneALoop zone cntA 0 r9
  let (cntMX, r11) := r10.randint 1 3
  let (mxRecs, r12) := zoneMXLoop zone cntMX 0 r11
  (soa :: (nsRecs ++ aRecs ++ mxRecs), r12)

/-- The specific-override loop of `generate_wildcard_scenario`. -/
def wildSpecLoop (zone : String) : List String → Rng → List Rec × Rng
  | [], r => ([], r)
  | sub :: rest, r =>
    let (ttl, r1) := r.randint 300 3600
    let (ip4, r2) := random_ipv4 r1
    let (others, r3) := wildSpecLoop zone rest r2
    (⟨sub ++ "." ++ zone, "A", "IN", ttl, ip4⟩ :: others, r3)

/-- Embeds `LogicalRecordGenerator.generate_wildcard_scenario`. -/
def generate_wildcard_scenario (r : Rng) (zone_name : Option String) :
    List Rec × Rng :=
  let (zone, r1) :=
    match zone_name with
    | none => random_domain_name r 2 none
    | some z => (z, r)
  let (ttl, r2) := r1.randint 300 3600
  let (ip4, r3) := random_ipv4 r2
  let (specs, r4) := wildSpecLoop zone ["www", "mail", "ftp"] r3
  (⟨"*." ++ zone, "A", "IN", ttl, ip4⟩ :: specs, r4)

/-- Embeds `LogicalRecordGenerator.generate_logical_records`: draw a scenario when
none is given, then dispatch.  `DELEGATION` has no `if` arm in the source
and falls into the `else` fallback, which is `generate_ns_with_glue_scenario`. -/
def generate_logical_records (r : Rng) (scenario : Option ScenarioType) :
    List Rec × Rng :=
  let (sc, r1) :=
    match scenario with
    | none => r.choice scenarioTypeList ScenarioType.nsWithGlue
    | some s => (s, r)
  match sc with
  | ScenarioType.nsWithGlue => generate_ns_with_glue_scenario r1 none
  | ScenarioType.cnameChain => generate_cname_chain_scenario r1 none false
  | ScenarioType.cnameLoop => generate_cname_chain_scenario r1 none true
  | ScenarioType.authorityAdditional =>
    let (triple, r2) := generate_authority_additional_scenario r1 none
    (triple.1 ++ triple.2.1 ++ triple.2.2, r2)
  | ScenarioType.zoneStructure => generate_zone_structure_scenario r1 none
  | ScenarioType.delegation => generate_ns_with_glue_scenario r1 none
  | ScenarioType.wildcardRecords => generate_wildcard_scenario r1 none

end LogicalRecordGenerator

/-! ## Heap embedding for aliasing (claim about structural independence)

Python record dicts live on the heap and lists hold references to them.
To state aliasing facts, records are stored in an explicit `Store` indexed
by addresses and a heap-level message holds addresses in its section
lists.  `list.copy()` produces a new list object holding the *same*
addresses, which at the value level is the identical address list. -/

abbrev Addr := Nat

/-- The record heap: address `a` holds `store.getD a defaultRec`. -/
abbrev Store := List Rec

/-- The all-empty record (never stored by the programs considered; only
the out-of-range default of `derefSection`). -/
def defaultRec : Rec := ⟨"", "", "", 0, ""⟩

/-- Dereference a section's address list against the heap. -/
def derefSection (store : Store) (addrs : List Addr) : List Rec :=
  addrs.map (fun a => store.getD a defaultRec)

/-- Heap-level `DNSQuery`: same fields as `DNSQuery`, with the three
record sections and the EDNS options holding heap addresses. -/
structure DNSQueryH where
  query_id : Nat
  opcode : Nat
  authoritative : Bool
  truncated : Bool
  recursion_desired : Bool
  recursion_available : Bool
  response_code : Nat
  is_response : Bool
  qname : String
  qtype : String
  qclass : String
  answers : List Addr
  authorities : List Addr
  additional : List Addr
  edns_version : Nat
  edns_payload_size : Nat
  edns_dnssec_ok : Bool
  edns_options : List Addr
deriving DecidableEq, Repr

/-- Heap-level `DNSQuery.clone`: scalars copied, the four lists
`list.copy()`-ed — a fresh list object with the same addresses, i.e. the
equal address list.  The records behind those addresses are *not* copied. -/
def DNSQueryH.clone (q : DNSQueryH) : DNSQueryH :=
  { query_id := q.query_id
    opcode := q.opcode
    authoritative := q.authoritative
    truncated := q.truncated
    recursion_desired := q.recursion_desired
    recursion_available := q.recursion_available
    response_code := q.response_code
    is_response := q.is_response
    qname := q.qname
    qtype := q.qtype
    qclass := q.qclass
    answers := q.answers
    authorities := q.authorities
    additional := q.additional
    edns_version := q.edns_version
    edns_payload_size := q.edns_payload_size
    edns_dnssec_ok := q.edns_dnssec_ok
    edns_options := q.edns_options }

/-- Embeds `LogicalRecordStrategy.mutate` (`strategies/logical.py`), heap level.
`self.scenario_type` is `None` for the base class, so a scenario is drawn
with `rng.choice(list(ScenarioType))` and passed to
`generate_logical_records`.  The loop body then runs
`query.additional_records.append(record_dict)` inside
`try: … except Exception: continue`; `DNSQuery` has no attribute
`additional_records`, so every append raises `AttributeError`, which the
handler swallows — no record is attached and the *input object itself* is
returned. -/
def LogicalRecordStrategy.mutate (q : DNSQueryH) (r : Rng) : DNSQueryH × Rng :=
  let (scenario, r1) := r.choice scenarioTypeList ScenarioType.nsWithGlue
  let (_records, r2) := LogicalRecordGenerator.generate_logical_records r1 (some scenario)
  (q, r2)

/-! ## Concrete example values used by counterexamples and witnesses -/

/-- A concrete RNG stream: every raw draw is `0`. -/
def rng0 : Rng := ⟨fun _ => 0, 0⟩

/-- A plain `example.com` `A`/`IN` query with id 12345 and empty sections. -/
def qEx : DNSQuery :=
  ⟨12345, 0, false, false, true, false, 0, false,
   "example.com", "A", "IN", [], [], [], 0, 1232, false, []⟩

/-- A strategy whose `can_mutate` is always false; its `mutate` sets the
query id to 999 so that an (incorrect) invocation is observable. -/
def sNever : Strategy :=
  ⟨"never", "never applicable", 1, "NeverStrategy",
   fun _ => false, fun q r => ({ q with query_id := 999 }, r)⟩

/-- A strategy that always applies and sets the query id to 777. -/
def sAlways : Strategy :=
  ⟨"always", "always applicable", 1, "AlwaysStrategy",
   fun _ => true, fun q r => ({ q with query_id := 777 }, r)⟩

/-- An applicable strategy with weight `0` (`0.0` in Python). -/
def sZero : Strategy :=
  ⟨"zero", "zero weight", 0, "ZeroWeightStrategy",
   fun _ => true, fun q r => (q, r)⟩

/-- A strategy named `"a"`, applicable to non-responses only. -/
def sA : Strategy :=
  ⟨"a", "rename", 1, "AStrategy",
   fun q => !q.is_response, fun q r => ({ q with qname := q.qname ++ ".a" }, r)⟩

/-- A strategy named `"b"`, always applicable. -/
def sB : Strategy :=
  ⟨"b", "retype", 1, "BStrategy",
   fun _ => true, fun q r => ({ q with qtype := "AAAA" }, r)⟩

/-- Two distinct concrete records for the heap counterexample. -/
def recA : Rec := ⟨"example.com", "A", "IN", 300, "127.0.0.1"⟩

/-- A record differing from `recA` in its rdata. -/
def recB : Rec := ⟨"example.com", "A", "IN", 300, "10.0.0.1"⟩

/-- A heap-level response whose answer section holds one record, stored at
address 0. -/
def qH0 : DNSQueryH :=
  ⟨12345, 0, false, false, true, false, 0, true,
   "example.com", "A", "IN", [0], [], [], 0, 1232, false, []⟩

/-- The heap backing `qH0`: one record at address 0. -/
def store0 : Store := [recA]

/-- Registry obtained by registering `sB` first and `sA` second. -/
def reg0 : List Strategy := register_strategy (register_strategy [] sB) sA

/-- The number of records of type `NS` in a record list. -/
def countNS (recs : List Rec) : Nat :=
  (recs.filter (fun rc => rc.rtype = "NS")).length

/-! ## Helper lemmas -/

/-- Lemma: `DNSQuery.clone` returns a field-by-field equal message. -/
theorem DNSQuery.clone_eq (q : DNSQuery) : q.clone = q := rfl

/-- A strategy picked by the cumulative-weight selection is an element of
the candidate list. -/
theorem pickCum_mem (xs : List Strategy) (u : Nat) (s : Strategy)
    (h : pickCum xs u = some s) : s ∈ xs := by
  induction xs generalizing u with
  | nil => simp [pickCum] at h
  | cons a rest ih =>
    simp only [pickCum] at h
    split at h
    · cases h
      exact List.mem_cons_self _ _
    · exact List.mem_cons_of_mem _ (ih _ h)

/-- Dropping the length of the left part of an append. -/
theorem drop_len_append (l : List HistRecord) (x : HistRecord) :
    (l ++ [x]).drop l.length = [x] := by
  simp

/-! ## Claims -/

/-- C1.  Determinism of the mutation engine: two `DNSMutator.mutate` runs
started from the same registry (contents and order) and the same seeded
RNG state, on the same input message and arguments, return the same
result (the same output message, or the same raised error) and append the
same history records — in particular the same ordered `strategies` list —
regardless of what the two mutators' histories already contained. -/
theorem mutate_deterministic (strats : List Strategy) (r : Rng)
    (h1 h2 : List HistRecord) (q : DNSQuery) (sname : Option String) (num : Nat) :
    (DNSMutator.mutate ⟨strats, r, h1⟩ q sname num).1 =
      (DNSMutator.mutate ⟨strats, r, h2⟩ q sname num).1 ∧
    (DNSMutator.mutate ⟨strats, r, h1⟩ q sname num).2.history.drop h1.length =
      (DNSMutator.mutate ⟨strats, r, h2⟩ q sname num).2.history.drop h2.length := by
  unfold DNSMutator.mutate
  by_cases hE : strats.isEmpty
  · simp [hE]
  · simp only [hE, Bool.false_eq_true, if_false]
    cases hm : mutateLoop strats sname num q.clone r [] with
    | error e => simp [List.drop_length]
    | ok t => simp [drop_len_append]

/-- C3 counterexample.  The claim asserts that the empty-registry failure
raises a `NoStrategiesRegistered` error kind *distinct and distinguishable
from* the `NoSuchStrategy` kind.  In the code both failures raise the very
same exception class `NoSuchStrategyError` (`exceptions.py` defines no
`NoStrategiesRegistered`): at the concrete inputs below, the empty-registry
call and the unknown-name call return errors with the *equal* class tag,
refuting the claimed distinctness.  (The rest of the claim — never
returning silently, input and history unchanged — does hold.) -/
theorem empty_registry_error_same_kind :
    ((DNSMutator.mutate ⟨[], rng0, []⟩ qEx none 1).1 =
       Except.error ⟨ExcClass.noSuchStrategyError, "No mutation strategies registered"⟩) ∧
    ((DNSMutator.mutate ⟨[sAlways], rng0, []⟩ qEx (some "missing") 1).1 =
       Except.error ⟨ExcClass.noSuchStrategyError,
         "Strategy " ++ squo ++ "missing" ++ squo ++ " not found"⟩) := by
  exact ⟨rfl, rfl⟩

/-- C3 amended.  `DNSMutator.mutate` on an empty registry always raises
`NoSuchStrategyError` with message `"No mutation strategies registered"` —
the same exception class as unknown-name lookups, distinguishable only by
its message — for every input message and argument combination; it never
silently returns the input, and the mutator state (history and RNG) is
unchanged by the failed call. -/
theorem mutate_empty_registry (q : DNSQuery) (sname : Option String)
    (num : Nat) (r : Rng) (h : List HistRecord) :
    DNSMutator.mutate ⟨[], r, h⟩ q sname num =
      (Except.error ⟨ExcClass.noSuchStrategyError, "No mutation strategies registered"⟩,
       ⟨[], r, h⟩) := rfl

/-- C4.  The claim (and the spec) require the weighted selection step not
to crash when every applicable strategy has weight 0.  Evaluating the
embedded `_sample` at such a state — the registry holds the single
always-applicable strategy `sZero` of weight `0` — shows that
`random.choices` raises `ValueError`, which propagates out of
`DNSMutator.mutate`: the code crashes exactly where the spec forbids it. -/
theorem sample_zero_weight_value_error :
    sampleStrategy [sZero] qEx rng0 =
      Except.error ⟨ExcClass.valueError, "Total of weights must be greater than zero"⟩ ∧
    DNSMutator.mutate ⟨[sZero], rng0, []⟩ qEx none 1 =
      (Except.error ⟨ExcClass.valueError, "Total of weights must be greater than zero"⟩,
       ⟨[sZero], rng0, []⟩) := by
  exact ⟨rfl, rfl⟩

/-- C5 counterexample.  The claim asserts that a strategy's `mutate` is
invoked only when its `can_mutate` holds, for the explicitly-named path as
well.  With the registry holding only `sNever` (whose `can_mutate` is
constantly false and whose `mutate` stamps query id 999),
`DNSMutator.mutate(query, strategy_name="never")` succeeds and records
`"never"` as applied: the strategy was invoked on a message for which
`can_mutate` is false, refuting the claim — the explicit-name path never
consults `can_mutate`. -/
theorem explicit_name_bypasses_can_mutate :
    sNever.canMutate qEx.clone = false ∧
    (DNSMutator.mutate ⟨[sNever], rng0, []⟩ qEx (some "never") 1).1 =
      Except.ok { qEx with query_id := 999 } ∧
    (DNSMutator.mutate ⟨[sNever], rng0, []⟩ qEx (some "never") 1).2.history =
      [histRecordOf qEx { qEx with query_id := 999 } ["never"]] := by
  exact ⟨rfl, rfl, rfl⟩

/-- C5 amended.  Applicability gating holds for the weighted-sampling path
only: whenever the selection step `_sample` returns a strategy for the
current message, that strategy's `can_mutate` holds on that message (the
explicitly-named path applies the strategy without consulting
`can_mutate`, as the counterexample shows). -/
theorem sample_gating (strats : List Strategy) (q : DNSQuery) (r : Rng)
    (s : Strategy) (r1 : Rng)
    (h : sampleStrategy strats q r = Except.ok (some (s, r1))) :
    s.canMutate q = true := by
  unfold sampleStrategy at h
  by_cases hE : (strats.filter (fun t => t.canMutate q)).isEmpty
  · simp [hE] at h
  · simp only [hE, Bool.false_eq_true, if_false] at h
    by_cases hT : ((strats.filter (fun t => t.canMutate q)).map (fun t => t.weight)).sum = 0
    · simp [hT] at h
    · simp only [hT, if_false] at h
      rw [Except.ok.injEq, Option.map_eq_some'] at h
      obtain ⟨t, ht, hmk⟩ := h
      obtain ⟨rfl, rfl⟩ := Prod.mk.injEq .. ▸ hmk
      have hmem := pickCum_mem _ _ _ ht
      exact (List.mem_filter.mp hmem).2

/-- C5 witness: instantiating the gating theorem at a concrete sampling
call that returns the strategy `sAlways`. -/
theorem sample_gating_witness : sAlways.canMutate qEx = true :=
  sample_gating [sAlways] qEx rng0 sAlways ⟨rng0.stream, 1⟩ rfl

/-- C2 (code bug).  The claim — and both the spec's invariant and the
code's own docstrings ("Create a deep copy", "adding logically related
records") — require `strategy.mutate` to return a message structurally
independent of the input.  Evaluating the embedded
`LogicalRecordStrategy.mutate` at the concrete response `qH0` (one answer
record at heap address 0) shows: the returned message *is* the input value
itself, sharing all record addresses (its appends target the nonexistent
attribute `additional_records` and the `AttributeError` is swallowed), and
`DNSQuery.clone` also keeps the same record addresses (`list.copy()` is
shallow).  Hence overwriting the record behind the result's answer address
(`recA` ↦ `recB`) changes what the original message's answer section
dereferences to — the claimed independence fails. -/
theorem logical_mutate_aliases_input :
    (LogicalRecordStrategy.mutate qH0 rng0).1 = qH0 ∧
    (DNSQueryH.clone qH0).answers = qH0.answers ∧
    derefSection store0 qH0.answers = [recA] ∧
    derefSection (store0.set 0 recB)
      ((LogicalRecordStrategy.mutate qH0 rng0).1).answers = [recB] ∧
    recB ≠ recA := by
  refine ⟨rfl, rfl, rfl, rfl, by decide⟩

/-- C9 counterexample.  The claim asserts that `list_strategies` is sorted
by strategy name independent of registration order.  Registering `sB`
(name `"b"`) and then `sA` (name `"a"`) yields the listing
`[info(b), info(a)]`, which is not sorted by name. -/
theorem list_strategies_not_sorted :
    list_strategies reg0 = [get_mutation_info sB, get_mutation_info sA] ∧
    ¬ List.Chain' (fun x y : StrategyInfo => x.name ≤ y.name)
        (list_strategies reg0) := by
  refine ⟨rfl, ?_⟩
  intro hch
  have h2 : list_strategies reg0 = [get_mutation_info sB, get_mutation_info sA] := rfl
  rw [h2] at hch
  have hle : ("b" : String) ≤ "a" :=
    (List.chain'_cons.mp hch).1
  rw [String.le_iff_toList_le] at hle
  revert hle
  decide

/-- C9 amended.  `list_strategies` enumerates the registered strategies in
registration (dict-insertion) order, not sorted by name: registering a
strategy under a fresh name appends its info at the end and leaves the
earlier entries in place. -/
theorem list_strategies_insertion_order (strats : List Strategy) (s : Strategy)
    (h : ∀ t ∈ strats, t.name ≠ s.name) :
    list_strategies (register_strategy strats s) =
      list_strategies strats ++ [get_mutation_info s] := by
  have hA : strats.any (fun t => t.name = s.name) = false := by
    rw [List.any_eq_false]
    intro t ht
    simpa using h t ht
  unfold register_strategy
  simp [hA, list_strategies]

/-- C9 witness: appending under the fresh name `"a"` after `"b"`. -/
theorem list_strategies_insertion_order_witness :
    list_strategies (register_strategy [sB] sA) =
      list_strategies [sB] ++ [get_mutation_info sA] :=
  list_strategies_insertion_order [sB] sA (by decide)

/-- C10.  `DNSMutator.mutate` stores the applied-strategy list under the
key `"strategies"` while `get_mutation_stats` aggregates only the key
`"strategy"`; consequently every history consisting solely of records
appended by successful `mutate` calls yields the empty statistics mapping.
Stated as: (1) a history none of whose records carries the key
`"strategy"` produces empty stats, and (2) every record a successful
`mutate` call adds to the history carries no `"strategy"` key. -/
theorem mutate_stats_key_mismatch :
    (∀ hist : List HistRecord,
       (∀ rec ∈ hist, lookupKey rec "strategy" = none) →
       get_mutation_stats hist = []) ∧
    (∀ st : MutatorState, ∀ q : DNSQuery, ∀ sname : Option String, ∀ num : Nat,
       ∀ mq : DNSQuery, ∀ st2 : MutatorState,
       DNSMutator.mutate st q sname num = (Except.ok mq, st2) →
       ∀ rec ∈ st2.history, rec ∈ st.history ∨ lookupKey rec "strategy" = none) := by
  constructor
  · intro hist hnone
    have key : ∀ (l : List HistRecord) (acc : List (String × Nat)),
        (∀ rec ∈ l, lookupKey rec "strategy" = none) →
        l.foldl statsStep acc = acc := by
      intro l
      induction l with
      | nil => intro acc _; rfl
      | cons a l2 ih =>
        intro acc hn
        have ha : lookupKey a "strategy" = none := hn a (List.mem_cons_self _ _)
        have hstep : statsStep acc a = acc := by
          simp [statsStep, ha]
        simp only [List.foldl_cons, hstep]
        exact ih acc (fun rec hr => hn rec (List.mem_cons_of_mem _ hr))
    exact key hist [] hnone
  · intro st q sname num mq st2 hok rec hrec
    unfold DNSMutator.mutate at hok
    by_cases hE : st.strategies.isEmpty
    · simp [hE] at hok
    · simp only [hE, Bool.false_eq_true, if_false] at hok
      cases hm : mutateLoop st.strategies sname num q.clone st.rng [] with
      | error e =>
        rw [hm] at hok
        simp at hok
      | ok t =>
        rw [hm] at hok
        obtain ⟨-, rfl⟩ := Prod.mk.injEq .. ▸ hok
        simp only [List.mem_append, List.mem_singleton] at hrec
        rcases hrec with hrec | rfl
        · exact Or.inl hrec
        · right
          simp [lookupKey, histRecordOf, List.find?]

/-- C10 witness: the statistics of the history produced by one concrete
successful `mutate` call are empty. -/
theorem mutate_stats_key_mismatch_witness :
    get_mutation_stats
      (DNSMutator.mutate ⟨[sAlways], rng0, []⟩ qEx none 1).2.history = [] :=
  mutate_stats_key_mismatch.1 _ (by decide)

/-- Lemma: `randint` stays inside its inclusive range. -/
theorem randint_bounds (r : Rng) (lo hi : Nat) (h : lo ≤ hi) :
    lo ≤ (r.randint lo hi).1 ∧ (r.randint lo hi).1 ≤ hi := by
  have hm : (r.stream r.idx) % (hi + 1 - lo) < hi + 1 - lo :=
    Nat.mod_lt _ (by omega)
  simp only [Rng.randint, Rng.next]
  omega

/-- Lemma: `countNS` distributes over append. -/
theorem countNS_append (l1 l2 : List Rec) :
    countNS (l1 ++ l2) = countNS l1 + countNS l2 := by
  simp [countNS, List.filter_append]

/-- Each glue block carries exactly one `NS` record. -/
theorem glueBlock_countNS (zone : String) (i : Nat) (r : Rng) :
    countNS (LogicalRecordGenerator.glueBlock zone i r).1 = 1 := by
  simp only [LogicalRecordGenerator.glueBlock]
  split <;> simp [countNS]

/-- Every `NS` record of a glue block is owned by the zone name. -/
theorem glueBlock_ns_names (zone : String) (i : Nat) (r : Rng) :
    ∀ a ∈ (LogicalRecordGenerator.glueBlock zone i r).1, a.rtype = "NS" → a.name = zone := by
  simp only [LogicalRecordGenerator.glueBlock]
  split <;> intro a ha hns <;> simp only [List.mem_cons, List.not_mem_nil, or_false] at ha
  · rcases ha with rfl | rfl | rfl
    · rfl
    · simp at hns
    · simp at hns
  · rcases ha with rfl | rfl
    · rfl
    · simp at hns

/-- Every `NS` record of a glue block has a glue `A` record in the same
block whose owner name is the NS target. -/
theorem glueBlock_glue (zone : String) (i : Nat) (r : Rng) :
    ∀ a ∈ (LogicalRecordGenerator.glueBlock zone i r).1, a.rtype = "NS" →
      ∃ g ∈ (LogicalRecordGenerator.glueBlock zone i r).1, g.rtype = "A" ∧ g.name = a.rdata := by
  simp only [LogicalRecordGenerator.glueBlock]
  split <;> intro a ha hns <;> simp only [List.mem_cons, List.not_mem_nil, or_false] at ha
  · rcases ha with rfl | rfl | rfl
    · exact ⟨_, List.mem_cons_of_mem _ (List.mem_cons_self _ _), rfl, rfl⟩
    · simp at hns
    · simp at hns
  · rcases ha with rfl | rfl
    · exact ⟨_, List.mem_cons_of_mem _ (List.mem_cons_self _ _), rfl, rfl⟩
    · simp at hns

/-- The glue loop produces exactly as many `NS` records as it has
iterations. -/
theorem glueLoop_countNS (zone : String) (n : Nat) : ∀ (i : Nat) (r : Rng),
    countNS (LogicalRecordGenerator.glueLoop zone n i r).1 = n := by
  induction n with
  | zero => intro i r; rfl
  | succ k ih =>
    intro i r
    simp only [LogicalRecordGenerator.glueLoop]
    rw [countNS_append, glueBlock_countNS, ih]
    omega

/-- Every `NS` record the glue loop produces is owned by the zone name. -/
theorem glueLoop_ns_names (zone : String) (n : Nat) : ∀ (i : Nat) (r : Rng),
    ∀ a ∈ (LogicalRecordGenerator.glueLoop zone n i r).1, a.rtype = "NS" → a.name = zone := by
  induction n with
  | zero => intro i r a ha; simp [LogicalRecordGenerator.glueLoop] at ha
  | succ k ih =>
    intro i r a ha hns
    simp only [LogicalRecordGenerator.glueLoop] at ha
    rcases List.mem_append.mp ha with h1 | h2
    · exact glueBlock_ns_names zone i r a h1 hns
    · exact ih (i + 1) _ a h2 hns

/-- Every `NS` record the glue loop produces has a matching glue `A`
record in the loop's output. -/
theorem glueLoop_glue (zone : String) (n : Nat) : ∀ (i : Nat) (r : Rng),
    ∀ a ∈ (LogicalRecordGenerator.glueLoop zone n i r).1, a.rtype = "NS" →
      ∃ g ∈ (LogicalRecordGenerator.glueLoop zone n i r).1, g.rtype = "A" ∧ g.name = a.rdata := by
  induction n with
  | zero => intro i r a ha; simp [LogicalRecordGenerator.glueLoop] at ha
  | succ k ih =>
    intro i r a ha hns
    simp only [LogicalRecordGenerator.glueLoop] at ha ⊢
    rcases List.mem_append.mp ha with h1 | h2
    · obtain ⟨g, hg, hA, hname⟩ := glueBlock_glue zone i r a h1 hns
      exact ⟨g, List.mem_append_left _ hg, hA, hname⟩
    · obtain ⟨g, hg, hA, hname⟩ := ih (i + 1) _ a h2 hns
      exact ⟨g, List.mem_append_right _ hg, hA, hname⟩

/-- C8.  NS_WITH_GLUE scenario consistency: for every RNG state,
`generate_logical_records(rng, NS_WITH_GLUE)` (which dispatches to
`generate_ns_with_glue_scenario`) yields between 2 and 4 `NS` records,
all `NS` records share the same owner (zone) name, and every `NS` record
has at least one `A` record in the output whose owner name equals the NS
record's rdata (its glue record). -/
theorem ns_with_glue_consistent (r : Rng) :
    2 ≤ countNS (LogicalRecordGenerator.generate_logical_records r
          (some ScenarioType.nsWithGlue)).1 ∧
    countNS (LogicalRecordGenerator.generate_logical_records r
          (some ScenarioType.nsWithGlue)).1 ≤ 4 ∧
    (∀ a ∈ (LogicalRecordGenerator.generate_logical_records r
          (some ScenarioType.nsWithGlue)).1, a.rtype = "NS" →
       ∀ b ∈ (LogicalRecordGenerator.generate_logical_records r
          (some ScenarioType.nsWithGlue)).1, b.rtype = "NS" →
       a.name = b.name) ∧
    (∀ a ∈ (LogicalRecordGenerator.generate_logical_records r
          (some ScenarioType.nsWithGlue)).1, a.rtype = "NS" →
       ∃ g ∈ (LogicalRecordGenerator.generate_logical_records r
          (some ScenarioType.nsWithGlue)).1,
         g.rtype = "A" ∧ g.name = a.rdata) := by
  have hd : LogicalRecordGenerator.generate_logical_records r
      (some ScenarioType.nsWithGlue) =
      LogicalRecordGenerator.generate_ns_with_glue_scenario r none := rfl
  rw [hd]
  simp only [LogicalRecordGenerator.generate_ns_with_glue_scenario]
  refine ⟨?_, ?_, ?_, ?_⟩
  · rw [glueLoop_countNS]
    exact (randint_bounds _ 2 4 (by omega)).1
  · rw [glueLoop_countNS]
    exact (randint_bounds _ 2 4 (by omega)).2
  · intro a ha hA b hb hB
    rw [glueLoop_ns_names _ _ _ _ a ha hA, glueLoop_ns_names _ _ _ _ b hb hB]
  · exact glueLoop_glue _ _ _ _

/-- C8 witness: at the all-zero RNG stream the scenario emits two `NS`
records (for `ns1` and `ns2` of the zone `aaa.com.`); instantiating the
same-owner conjunct at those two concrete records. -/
theorem ns_with_glue_consistent_witness :
    (⟨"aaa.com.", "NS", "IN", 3600, "ns1.aaa.com."⟩ : Rec).name =
      (⟨"aaa.com.", "NS", "IN", 3600, "ns2.aaa.com."⟩ : Rec).name :=
  (ns_with_glue_consistent rng0).2.2.1
    ⟨"aaa.com.", "NS", "IN", 3600, "ns1.aaa.com."⟩ (by decide) rfl
    ⟨"aaa.com.", "NS", "IN", 3600, "ns2.aaa.com."⟩ (by decide) rfl

/-- C6.  Early stop on no applicable strategy: (1) whenever the
random-selection mutation loop reaches a message for which no registered
strategy's `can_mutate` holds, it terminates normally — no exception —
returning the message, RNG and applied-name list accumulated so far; and
(2) every random-selection `mutate` call that returns normally appends
exactly one history record for the whole call, built from the applied
strategy names. -/
theorem mutate_early_stop :
    (∀ (strats : List Strategy) (fuel : Nat) (q : DNSQuery) (r : Rng)
       (acc : List String),
       (∀ s ∈ strats, s.canMutate q = false) →
       mutateLoop strats none fuel q r acc = Except.ok (q, r, acc)) ∧
    (∀ (strats : List Strategy) (r : Rng) (h : List HistRecord) (q : DNSQuery)
       (num : Nat) (mq : DNSQuery) (st2 : MutatorState),
       DNSMutator.mutate ⟨strats, r, h⟩ q none num = (Except.ok mq, st2) →
       ∃ applied : List String,
         st2.history = h ++ [histRecordOf q mq applied]) := by
  constructor
  · intro strats fuel q r acc hna
    have hfil : strats.filter (fun s => s.canMutate q) = [] := by
      rw [List.filter_eq_nil_iff]
      intro a ha
      simp [hna a ha]
    cases fuel with
    | zero => rfl
    | succ n =>
      simp [mutateLoop, sampleStrategy, hfil]
  · intro strats r h q num mq st2 hok
    unfold DNSMutator.mutate at hok
    by_cases hE : strats.isEmpty
    · simp [hE] at hok
    · simp only [hE, Bool.false_eq_true, if_false] at hok
      cases hm : mutateLoop strats none num q.clone r [] with
      | error e =>
        rw [hm] at hok
        simp at hok
      | ok t =>
        obtain ⟨tq, tr, tapp⟩ := t
        rw [hm] at hok
        obtain ⟨h1, h2⟩ := Prod.mk.injEq .. ▸ hok
        obtain rfl : tq = mq := Except.ok.inj h1
        exact ⟨tapp, by rw [← h2]⟩

/-- C6 witness: with the registry holding only the never-applicable
strategy `sNever`, the loop stops at once and returns the accumulated
state unchanged. -/
theorem mutate_early_stop_witness :
    mutateLoop [sNever] none 3 qEx rng0 [] = Except.ok (qEx, rng0, []) :=
  mutate_early_stop.1 [sNever] 3 qEx rng0 [] (by decide)

/-- Resolution fails — with a `NoSuchStrategyError` — exactly when some
listed name is unregistered. -/
theorem resolveChain_error_iff (strats : List Strategy) (names : List String) :
    (∃ nm ∈ names, get_strategy strats nm = none) ↔
    (∃ msg, resolveChain strats names =
       Except.error ⟨ExcClass.noSuchStrategyError, msg⟩) := by
  induction names with
  | nil => simp [resolveChain]
  | cons nm rest ih =>
    cases hg : get_strategy strats nm with
    | none =>
      simp only [resolveChain, hg]
      constructor
      · intro _
        exact ⟨"Strategy " ++ squo ++ nm ++ squo ++ " not found", rfl⟩
      · intro _
        exact ⟨nm, List.mem_cons_self _ _, hg⟩
    | some s =>
      simp only [resolveChain, hg]
      cases hr : resolveChain strats rest with
      | error e =>
        rw [hr] at ih
        constructor
        · intro hL
          rcases hL with ⟨x, hx, hmiss⟩
          rcases List.mem_cons.mp hx with rfl | hx2
          · rw [hg] at hmiss
            exact Option.noConfusion hmiss
          · exact ih.mp ⟨x, hx2, hmiss⟩
        · intro hR
          rcases ih.mpr hR with ⟨x, hx2, hmiss⟩
          exact ⟨x, List.mem_cons_of_mem _ hx2, hmiss⟩
      | ok ss =>
        rw [hr] at ih
        constructor
        · intro hL
          exfalso
          rcases hL with ⟨x, hx, hmiss⟩
          rcases List.mem_cons.mp hx with rfl | hx2
          · rw [hg] at hmiss
            exact Option.noConfusion hmiss
          · rcases ih.mp ⟨x, hx2, hmiss⟩ with ⟨msg, hmsg⟩
            exact Except.noConfusion hmsg
        · intro hR
          rcases hR with ⟨msg, hmsg⟩
          exact Except.noConfusion hmsg

/-- A successfully resolved chain folds exactly like the by-name
specification fold, from any starting message/RNG pair. -/
theorem chain_fold_eq (strats : List Strategy) (names : List String)
    (resolved : List Strategy)
    (h : resolveChain strats names = Except.ok resolved) (p : DNSQuery × Rng) :
    resolved.foldl
      (fun p s => if s.canMutate p.1 then s.mutateFn p.1 p.2 else p) p =
    names.foldl
      (fun p nm =>
        match get_strategy strats nm with
        | some s => if s.canMutate p.1 then s.mutateFn p.1 p.2 else p
        | none => p) p := by
  induction names generalizing resolved p with
  | nil =>
    obtain rfl : ([] : List Strategy) = resolved := Except.ok.inj h
    rfl
  | cons nm rest ih =>
    cases hg : get_strategy strats nm with
    | none =>
      simp only [resolveChain, hg] at h
      exact Except.noConfusion h
    | some s =>
      simp only [resolveChain, hg] at h
      cases hr : resolveChain strats rest with
      | error e =>
        rw [hr] at h
        exact Except.noConfusion h
      | ok ss =>
        rw [hr] at h
        obtain rfl : s :: ss = resolved := Except.ok.inj h
        simp only [List.foldl_cons, hg]
        exact ih ss hr _

/-- C7.  Chain semantics of `create_strategy_chain(names)`:
(1) chain creation raises `NoSuchStrategyError` exactly when some listed
name is unregistered at creation time; and (2) whenever creation succeeds,
applying the returned chain to any message and RNG state equals applying
the named strategies one after another in list order on an initial clone,
each applied exactly when its `can_mutate` holds on the then-current
message and skipped otherwise (`chainSpecApply`, stated from the spec's
words). -/
theorem create_strategy_chain_correct (strats : List Strategy) (names : List String) :
    ((∃ nm ∈ names, get_strategy strats nm = none) ↔
       (∃ msg, create_strategy_chain strats names =
          Except.error ⟨ExcClass.noSuchStrategyError, msg⟩)) ∧
    (∀ resolved : List Strategy,
       create_strategy_chain strats names = Except.ok resolved →
       ∀ (q : DNSQuery) (r : Rng),
         apply_chain resolved q r = chainSpecApply strats names q r) := by
  constructor
  · exact resolveChain_error_iff strats names
  · intro resolved h q r
    exact chain_fold_eq strats names resolved h (q.clone, r)

/-- C7 witness: the chain `["a", "b"]` over the registry `[sA, sB]`
resolves to `[sA, sB]`, and applying it coincides with the by-name
specification fold at the concrete query `qEx`. -/
theorem create_strategy_chain_correct_witness :
    apply_chain [sA, sB] qEx rng0 = chainSpecApply [sA, sB] ["a", "b"] qEx rng0 :=
  (create_strategy_chain_correct [sA, sB] ["a", "b"]).2 [sA, sB] rfl qEx rng0
